import Mathlib

/-!
Shallow embedding of the numerical core of `src/main.py` (education savings
calculator): glide-path generation, required-deposit binary search, and
year-by-year portfolio projection. Python floats are modelled as exact
rationals; Python division, which raises `ZeroDivisionError` on a zero
divisor, is modelled with `Except`; list indexing that can raise
`IndexError` is modelled with `Option`.
-/

namespace EduSavings

attribute [local semireducible] Rat.add Rat.sub Rat.mul Rat.inv

/-- Errors relevant to the horizon-validation behaviour: the error Python
actually raises on division by zero, and the fail-fast error the
specification prescribes for invalid horizons (which the source never
raises). -/
inductive PyError where
  | zeroDivisionError : PyError
  | invalidHorizon : PyError
  deriving DecidableEq

/-- Constant `STOCKS_RETURN = 0.113` from the source. -/
def STOCKS_RETURN : ℚ := 113 / 1000

/-- Constant `BONDS_RETURN = 0.046` from the source. -/
def BONDS_RETURN : ℚ := 46 / 1000

/-- Constant `CASH_RETURN = 0.041` from the source. -/
def CASH_RETURN : ℚ := 41 / 1000

/-- An allocation dict with keys stocks, bonds, cash (percentages). -/
structure Alloc where
  stocks : ℚ
  bonds : ℚ
  cash : ℚ
  deriving DecidableEq

/-- Constant `END_ALLOCATION = {stocks: 20, bonds: 43, cash: 37}`. -/
def END_ALLOCATION : Alloc := ⟨20, 43, 37⟩

/-- Constant `MAX_START_STOCKS = 80`. -/
def MAX_START_STOCKS : ℚ := 80

/-- Constant `MAX_START_BONDS = 70`. -/
def MAX_START_BONDS : ℚ := 70

/-- Constant `MIN_START_CASH = 5`. -/
def MIN_START_CASH : ℚ := 5

/-- Round half to even (bankers rounding) to the nearest integer, the
behaviour of the Python builtin `round` on exact midpoint values. -/
def rhe (x : ℚ) : ℤ :=
  let f := ⌊x⌋
  let r := x - f
  if r < 1 / 2 then f
  else if 1 / 2 < r then f + 1
  else if f % 2 = 0 then f else f + 1

/-- Model of `round(x, 2)` from the source: round to 2 decimal places. -/
def round2 (x : ℚ) : ℚ := (rhe (100 * x) : ℚ) / 100

/-- Embedding of `calculate_start_allocation` (src/main.py lines 28-58).
The second binding of `start_bonds` in the source is the shadowing
rebinding `start_bonds = 100 - start_stocks - start_cash`. -/
def calculate_start_allocation (time_horizon : ℤ) : Alloc :=
  let time_factor : ℚ := min ((time_horizon : ℚ) / 10) 1
  let start_stocks : ℚ :=
    min (END_ALLOCATION.stocks + (MAX_START_STOCKS - END_ALLOCATION.stocks) * time_factor)
      MAX_START_STOCKS
  let start_bonds : ℚ :=
    min (END_ALLOCATION.bonds + (MAX_START_BONDS - END_ALLOCATION.bonds) * time_factor * (7 / 10))
      MAX_START_BONDS
  let start_cash : ℚ := max MIN_START_CASH (100 - start_stocks - start_bonds)
  let start_bonds : ℚ := 100 - start_stocks - start_cash
  ⟨round2 start_stocks, round2 start_bonds, round2 start_cash⟩

lemma rhe_intCast (k : ℤ) : rhe (k : ℚ) = k := by
  unfold rhe
  have hf : ⌊(k : ℚ)⌋ = k := Int.floor_intCast k
  simp only [hf, sub_self]
  norm_num

lemma abs_rhe_sub (x : ℚ) : |(rhe x : ℚ) - x| ≤ 1 / 2 := by
  unfold rhe
  have h0 : (⌊x⌋ : ℚ) ≤ x := Int.floor_le x
  have h1 : x < (⌊x⌋ : ℚ) + 1 := Int.lt_floor_add_one x
  by_cases hlt : x - (⌊x⌋ : ℚ) < 1 / 2
  · simp only [if_pos hlt]
    rw [abs_le]
    constructor <;> linarith
  · simp only [if_neg hlt]
    by_cases hgt : 1 / 2 < x - (⌊x⌋ : ℚ)
    · simp only [if_pos hgt]
      rw [abs_le]
      push_cast
      constructor <;> linarith
    · simp only [if_neg hgt]
      have heq : x - (⌊x⌋ : ℚ) = 1 / 2 := le_antisymm (not_lt.mp hgt) (not_lt.mp hlt)
      by_cases hev : ⌊x⌋ % 2 = 0
      · simp only [if_pos hev]
        rw [abs_le]
        constructor <;> linarith
      · simp only [if_neg hev]
        rw [abs_le]
        push_cast
        constructor <;> linarith

/-- Rationals that are an integer number of hundredths (2-decimal values). -/
def IsCent (x : ℚ) : Prop := ∃ k : ℤ, x = (k : ℚ) / 100

lemma round2_eq_self {x : ℚ} (h : IsCent x) : round2 x = x := by
  obtain ⟨k, hk⟩ := h
  subst hk
  unfold round2
  have : (100 : ℚ) * ((k : ℚ) / 100) = (k : ℚ) := by ring
  rw [this, rhe_intCast]

lemma round2_intCast (k : ℤ) : round2 (k : ℚ) = k := by
  have h : round2 (k : ℚ) = (k : ℚ) := round2_eq_self ⟨k * 100, by push_cast; ring⟩
  rw [h]

lemma round2_round2 (x : ℚ) : round2 (round2 x) = round2 x :=
  round2_eq_self ⟨rhe (100 * x), rfl⟩

lemma abs_round2_sub (x : ℚ) : |round2 x - x| ≤ 1 / 200 := by
  unfold round2
  have h := abs_rhe_sub (100 * x)
  have h100 : (0 : ℚ) < 100 := by norm_num
  have : |(rhe (100 * x) : ℚ) / 100 - x| = |(rhe (100 * x) : ℚ) - 100 * x| / 100 := by
    rw [← abs_of_pos h100, ← abs_div]
    congr 1
    field_simp
  rw [this]
  rw [div_le_iff₀ h100]
  linarith

/-- Closed form of the start allocation for horizons 1 to 4 (the cash floor
is not yet binding). -/
lemma start_alloc_low (th : ℤ) (h1 : 1 ≤ th) (h4 : th ≤ 4) :
    calculate_start_allocation th =
      ⟨20 + 6 * th, 43 + 189 * th / 100, 37 - 789 * th / 100⟩ := by
  have hq1 : (1 : ℚ) ≤ (th : ℚ) := by exact_mod_cast h1
  have hq4 : (th : ℚ) ≤ 4 := by exact_mod_cast h4
  unfold calculate_start_allocation
  simp only [END_ALLOCATION, MAX_START_STOCKS, MAX_START_BONDS, MIN_START_CASH]
  have htf : min ((th : ℚ) / 10) 1 = (th : ℚ) / 10 := min_eq_left (by linarith)
  rw [htf]
  have hs : min (20 + (80 - 20) * ((th : ℚ) / 10)) 80 = 20 + 6 * (th : ℚ) := by
    rw [min_eq_left (by linarith)]
    ring
  rw [hs]
  have hb : min (43 + (70 - 43) * ((th : ℚ) / 10) * (7 / 10)) 70
      = 43 + 189 * (th : ℚ) / 100 := by
    rw [min_eq_left (by linarith)]
    ring
  rw [hb]
  have hc : max 5 (100 - (20 + 6 * (th : ℚ)) - (43 + 189 * (th : ℚ) / 100))
      = 37 - 789 * (th : ℚ) / 100 := by
    rw [max_eq_right (by linarith)]
    ring
  rw [hc]
  have e1 : round2 (20 + 6 * (th : ℚ)) = 20 + 6 * (th : ℚ) :=
    round2_eq_self ⟨2000 + 600 * th, by push_cast; ring⟩
  have e2 : round2 (100 - (20 + 6 * (th : ℚ)) - (37 - 789 * (th : ℚ) / 100))
      = 43 + 189 * (th : ℚ) / 100 := by
    have harg : 100 - (20 + 6 * (th : ℚ)) - (37 - 789 * (th : ℚ) / 100)
        = 43 + 189 * (th : ℚ) / 100 := by ring
    rw [harg]
    exact round2_eq_self ⟨4300 + 189 * th, by push_cast; ring⟩
  have e3 : round2 (37 - 789 * (th : ℚ) / 100) = 37 - 789 * (th : ℚ) / 100 :=
    round2_eq_self ⟨3700 - 789 * th, by push_cast; ring⟩
  rw [e1, e2, e3]

/-- Closed form of the start allocation for horizons 5 to 10 (the cash floor
of 5 percent is binding, the stocks ramp is not yet capped). -/
lemma start_alloc_mid (th : ℤ) (h5 : 5 ≤ th) (h10 : th ≤ 10) :
    calculate_start_allocation th = ⟨20 + 6 * th, 75 - 6 * th, 5⟩ := by
  have hq5 : (5 : ℚ) ≤ (th : ℚ) := by exact_mod_cast h5
  have hq10 : (th : ℚ) ≤ 10 := by exact_mod_cast h10
  unfold calculate_start_allocation
  simp only [END_ALLOCATION, MAX_START_STOCKS, MAX_START_BONDS, MIN_START_CASH]
  have htf : min ((th : ℚ) / 10) 1 = (th : ℚ) / 10 := min_eq_left (by linarith)
  rw [htf]
  have hs : min (20 + (80 - 20) * ((th : ℚ) / 10)) 80 = 20 + 6 * (th : ℚ) := by
    rw [min_eq_left (by linarith)]
    ring
  rw [hs]
  have hb : min (43 + (70 - 43) * ((th : ℚ) / 10) * (7 / 10)) 70
      = 43 + 189 * (th : ℚ) / 100 := by
    rw [min_eq_left (by linarith)]
    ring
  rw [hb]
  have hc : max 5 (100 - (20 + 6 * (th : ℚ)) - (43 + 189 * (th : ℚ) / 100)) = 5 := by
    rw [max_eq_left (by linarith)]
  rw [hc]
  have e1 : round2 (20 + 6 * (th : ℚ)) = 20 + 6 * (th : ℚ) :=
    round2_eq_self ⟨2000 + 600 * th, by push_cast; ring⟩
  have e2 : round2 (100 - (20 + 6 * (th : ℚ)) - 5) = 75 - 6 * (th : ℚ) := by
    have harg : 100 - (20 + 6 * (th : ℚ)) - 5 = 75 - 6 * (th : ℚ) := by ring
    rw [harg]
    exact round2_eq_self ⟨7500 - 600 * th, by push_cast; ring⟩
  have e3 : round2 (5 : ℚ) = 5 := by
    have : ((5 : ℤ) : ℚ) = (5 : ℚ) := by norm_num
    rw [← this, round2_intCast]
  rw [e1, e2, e3]

/-- Closed form of the start allocation for horizons of 10 years or more:
the maximally aggressive mix. -/
lemma start_alloc_high (th : ℤ) (h10 : 10 ≤ th) :
    calculate_start_allocation th = ⟨80, 15, 5⟩ := by
  have hq10 : (10 : ℚ) ≤ (th : ℚ) := by exact_mod_cast h10
  unfold calculate_start_allocation
  simp only [END_ALLOCATION, MAX_START_STOCKS, MAX_START_BONDS, MIN_START_CASH]
  have htf : min ((th : ℚ) / 10) 1 = 1 := min_eq_right (by linarith)
  rw [htf]
  have hs : min (20 + (80 - 20) * (1 : ℚ)) 80 = 80 := by norm_num
  rw [hs]
  have hb : min (43 + (70 - 43) * (1 : ℚ) * (7 / 10)) 70 = 619 / 10 := by norm_num
  rw [hb]
  have hc : max (5 : ℚ) (100 - 80 - 619 / 10) = 5 := by
    rw [max_eq_left (by norm_num)]
  rw [hc]
  have e1 : round2 (80 : ℚ) = 80 := by
    have : ((80 : ℤ) : ℚ) = (80 : ℚ) := by norm_num
    rw [← this, round2_intCast]
  have e2 : round2 (100 - 80 - 5 : ℚ) = 15 := by
    have harg : (100 - 80 - 5 : ℚ) = ((15 : ℤ) : ℚ) := by norm_num
    rw [harg, round2_intCast]
    norm_num
  have e3 : round2 (5 : ℚ) = 5 := by
    have : ((5 : ℤ) : ℚ) = (5 : ℚ) := by norm_num
    rw [← this, round2_intCast]
  rw [e1, e2, e3]

/-- Component bounds and exact normalisation of the start allocation, for
every horizon of at least one year. -/
lemma start_alloc_bounds (th : ℤ) (h : 1 ≤ th) :
    (20 ≤ (calculate_start_allocation th).stocks ∧ (calculate_start_allocation th).stocks ≤ 80) ∧
    (15 ≤ (calculate_start_allocation th).bonds ∧ (calculate_start_allocation th).bonds ≤ 75) ∧
    (5 ≤ (calculate_start_allocation th).cash ∧ (calculate_start_allocation th).cash ≤ 37) ∧
    (calculate_start_allocation th).stocks + (calculate_start_allocation th).bonds +
      (calculate_start_allocation th).cash = 100 := by
  rcases le_or_lt th 4 with h4 | h4
  · rw [start_alloc_low th h h4]
    dsimp only
    have hq1 : (1 : ℚ) ≤ (th : ℚ) := by exact_mod_cast h
    have hq4 : (th : ℚ) ≤ 4 := by exact_mod_cast h4
    refine ⟨⟨by linarith, by linarith⟩, ⟨by linarith, by linarith⟩,
      ⟨by linarith, by linarith⟩, by ring⟩
  · rcases le_or_lt th 10 with h10 | h10
    · rw [start_alloc_mid th (by omega) h10]
      dsimp only
      have hq5 : (5 : ℚ) ≤ (th : ℚ) := by exact_mod_cast (show (5 : ℤ) ≤ th by omega)
      have hq10 : (th : ℚ) ≤ 10 := by exact_mod_cast h10
      refine ⟨⟨by linarith, by linarith⟩, ⟨by linarith, by linarith⟩,
        ⟨by norm_num, by norm_num⟩, by ring⟩
    · rw [start_alloc_high th (by omega)]
      dsimp only
      refine ⟨⟨by norm_num, by norm_num⟩, ⟨by norm_num, by norm_num⟩,
        ⟨by norm_num, by norm_num⟩, by norm_num⟩

/-- Python division on numbers: raises ZeroDivisionError when the divisor
is zero, otherwise returns the exact quotient. -/
def pydiv (a b : ℚ) : Except PyError ℚ :=
  if b = 0 then .error .zeroDivisionError else .ok (a / b)

/-- A glide-path entry: the dict `{year, stocks, bonds, cash}` appended by
`generate_glide_path`. -/
structure GlideEntry where
  year : ℤ
  stocks : ℚ
  bonds : ℚ
  cash : ℚ
  deriving DecidableEq

/-- Default entry used with `List.getD` when stating index lookups. -/
def dGE : GlideEntry := ⟨0, 0, 0, 0⟩

/-- Body of the loop in `generate_glide_path` (src/main.py lines 65-75) for
one value of `year`: three Python divisions by `time_horizon`, then the
rounded interpolated components. -/
def glide_entry (start : Alloc) (time_horizon : ℤ) (year : ℕ) : Except PyError GlideEntry := do
  let ds ← pydiv ((END_ALLOCATION.stocks - start.stocks) * year) time_horizon
  let db ← pydiv ((END_ALLOCATION.bonds - start.bonds) * year) time_horizon
  let dc ← pydiv ((END_ALLOCATION.cash - start.cash) * year) time_horizon
  .ok ⟨year, round2 (start.stocks + ds), round2 (start.bonds + db), round2 (start.cash + dc)⟩

/-- The `for year in range(time_horizon + 1)` loop of `generate_glide_path`,
over an explicit list of year values. -/
def glide_loop (start : Alloc) (time_horizon : ℤ) : List ℕ → Except PyError (List GlideEntry)
  | [] => .ok []
  | y :: ys => do
    let e ← glide_entry start time_horizon y
    let rest ← glide_loop start time_horizon ys
    .ok (e :: rest)

/-- Embedding of `generate_glide_path` (src/main.py lines 60-76). Each
iteration divides by `time_horizon`, so `time_horizon = 0` raises
ZeroDivisionError at year 0, while a negative horizon runs zero loop
iterations and silently returns the empty list. -/
def generate_glide_path (time_horizon : ℤ) : Except PyError (List GlideEntry) :=
  glide_loop (calculate_start_allocation time_horizon) time_horizon
    (List.range (time_horizon + 1).toNat)

/-- Value of one glide-path entry in the error-free case. -/
def glide_entry_val (start : Alloc) (time_horizon : ℤ) (year : ℕ) : GlideEntry :=
  ⟨year,
   round2 (start.stocks + (END_ALLOCATION.stocks - start.stocks) * year / time_horizon),
   round2 (start.bonds + (END_ALLOCATION.bonds - start.bonds) * year / time_horizon),
   round2 (start.cash + (END_ALLOCATION.cash - start.cash) * year / time_horizon)⟩

lemma glide_entry_ok (start : Alloc) (time_horizon : ℤ) (hth : time_horizon ≠ 0) (y : ℕ) :
    glide_entry start time_horizon y = .ok (glide_entry_val start time_horizon y) := by
  have hq : ((time_horizon : ℚ)) ≠ 0 := Int.cast_ne_zero.mpr hth
  simp only [glide_entry, pydiv, if_neg hq]
  rfl

lemma glide_loop_ok (start : Alloc) (time_horizon : ℤ) (hth : time_horizon ≠ 0) (ys : List ℕ) :
    glide_loop start time_horizon ys = .ok (ys.map (glide_entry_val start time_horizon)) := by
  induction ys with
  | nil => rfl
  | cons y ys ih =>
    simp only [glide_loop, glide_entry_ok start time_horizon hth y, ih, List.map]
    rfl

lemma generate_glide_path_ok (time_horizon : ℤ) (hth : time_horizon ≠ 0) :
    generate_glide_path time_horizon =
      .ok ((List.range (time_horizon + 1).toNat).map
        (glide_entry_val (calculate_start_allocation time_horizon) time_horizon)) :=
  glide_loop_ok _ _ hth _

/-- C1: the claim says every call of `generate_glide_path` with
`time_horizon < 1` fails fast with an InvalidHorizon error rather than a
division by zero. The code has no such guard: at horizon 0 it raises
ZeroDivisionError from `year / time_horizon`, and at a negative horizon it
silently returns the empty list, so no InvalidHorizon failure occurs. -/
theorem C1_zero_horizon_division_error :
    generate_glide_path 0 = .error .zeroDivisionError ∧
    generate_glide_path 0 ≠ .error .invalidHorizon ∧
    generate_glide_path (-3) = .ok [] := by
  refine ⟨rfl, ?_, rfl⟩
  intro hcontra
  have h0 : generate_glide_path 0 = .error .zeroDivisionError := rfl
  rw [h0] at hcontra
  exact PyError.noConfusion (Except.error.inj hcontra)

/-- C3: for every time horizon of at least one year, the glide path exists,
has one entry per year 0..time_horizon, its entry at index 0 equals the
start allocation componentwise, and its entry at index time_horizon equals
END_ALLOCATION, namely stocks 20, bonds 43, cash 37, exactly. -/
theorem C3_glide_path_endpoints (th : ℤ) (h : 1 ≤ th) :
    ∃ l, generate_glide_path th = .ok l ∧ l.length = th.toNat + 1 ∧
      ((l.getD 0 dGE).stocks = (calculate_start_allocation th).stocks ∧
       (l.getD 0 dGE).bonds = (calculate_start_allocation th).bonds ∧
       (l.getD 0 dGE).cash = (calculate_start_allocation th).cash) ∧
      ((l.getD th.toNat dGE).stocks = 20 ∧ (l.getD th.toNat dGE).bonds = 43 ∧
       (l.getD th.toNat dGE).cash = 37) := by
  have hth : th ≠ 0 := by omega
  have hq : ((th : ℚ)) ≠ 0 := Int.cast_ne_zero.mpr hth
  set start := calculate_start_allocation th with hstart
  refine ⟨_, generate_glide_path_ok th hth, ?_, ?_, ?_⟩
  · simp only [List.length_map, List.length_range]
    omega
  · have hlt : 0 < (List.range (th + 1).toNat).length := by
      simp only [List.length_range]
      omega
    have hget : ((List.range (th + 1).toNat).map (glide_entry_val start th)).getD 0 dGE
        = glide_entry_val start th 0 := by
      rw [List.getD_eq_getElem?_getD]
      rw [List.getElem?_eq_getElem (by simpa using hlt)]
      simp [List.getElem_map]
    rw [hget]
    unfold glide_entry_val
    have hzero : ∀ a b : ℚ, round2 (a + b * (0 : ℕ) / th) = round2 a := by
      intro a b
      norm_num
    refine ⟨?_, ?_, ?_⟩
    · dsimp only
      rw [hzero]
      obtain ⟨ks, hks⟩ : IsCent start.stocks := ⟨rhe (100 * _), rfl⟩
      rw [hks, round2_eq_self ⟨ks, rfl⟩]
    · dsimp only
      rw [hzero]
      obtain ⟨kb, hkb⟩ : IsCent start.bonds := ⟨rhe (100 * _), rfl⟩
      rw [hkb, round2_eq_self ⟨kb, rfl⟩]
    · dsimp only
      rw [hzero]
      obtain ⟨kc, hkc⟩ : IsCent start.cash := ⟨rhe (100 * _), rfl⟩
      rw [hkc, round2_eq_self ⟨kc, rfl⟩]
  · have hlt : th.toNat < (List.range (th + 1).toNat).length := by
      simp only [List.length_range]
      omega
    have hget : ((List.range (th + 1).toNat).map (glide_entry_val start th)).getD th.toNat dGE
        = glide_entry_val start th th.toNat := by
      rw [List.getD_eq_getElem?_getD]
      rw [List.getElem?_eq_getElem (by simpa using hlt)]
      simp [List.getElem_map]
    rw [hget]
    unfold glide_entry_val
    have hcast : ((th.toNat : ℕ) : ℚ) = (th : ℚ) := by
      exact_mod_cast Int.toNat_of_nonneg (show (0 : ℤ) ≤ th by omega)
    have hfull : ∀ a b : ℚ, a + (b - a) * (th.toNat : ℕ) / th = b := by
      intro a b
      rw [hcast]
      field_simp
    refine ⟨?_, ?_, ?_⟩
    · dsimp only
      rw [hfull start.stocks END_ALLOCATION.stocks]
      have : END_ALLOCATION.stocks = ((20 : ℤ) : ℚ) := by norm_num [END_ALLOCATION]
      rw [this, round2_intCast]
      norm_num
    · dsimp only
      rw [hfull start.bonds END_ALLOCATION.bonds]
      have : END_ALLOCATION.bonds = ((43 : ℤ) : ℚ) := by norm_num [END_ALLOCATION]
      rw [this, round2_intCast]
      norm_num
    · dsimp only
      rw [hfull start.cash END_ALLOCATION.cash]
      have : END_ALLOCATION.cash = ((37 : ℤ) : ℚ) := by norm_num [END_ALLOCATION]
      rw [this, round2_intCast]
      norm_num

/-- C3 witness at the concrete horizon 1. -/
theorem C3_glide_path_endpoints_witness :
    (1 : ℤ) ≤ 1 ∧
    (∃ l, generate_glide_path 1 = .ok l ∧ l.length = (1 : ℤ).toNat + 1 ∧
      ((l.getD 0 dGE).stocks = (calculate_start_allocation 1).stocks ∧
       (l.getD 0 dGE).bonds = (calculate_start_allocation 1).bonds ∧
       (l.getD 0 dGE).cash = (calculate_start_allocation 1).cash) ∧
      ((l.getD (1 : ℤ).toNat dGE).stocks = 20 ∧ (l.getD (1 : ℤ).toNat dGE).bonds = 43 ∧
       (l.getD (1 : ℤ).toNat dGE).cash = 37)) :=
  ⟨le_refl 1, C3_glide_path_endpoints 1 (le_refl 1)⟩

/-- C6: the stocks component of the start allocation is monotone
non-decreasing in the horizon on 0..10, and constant from 10 on. -/
theorem C6_start_stocks_monotone :
    (∀ a b : ℤ, 0 ≤ a → a ≤ b → b ≤ 10 →
      (calculate_start_allocation a).stocks ≤ (calculate_start_allocation b).stocks) ∧
    (∀ th : ℤ, 10 ≤ th →
      (calculate_start_allocation th).stocks = (calculate_start_allocation 10).stocks) := by
  have hstocks : ∀ th : ℤ, 0 ≤ th → th ≤ 10 →
      (calculate_start_allocation th).stocks = 20 + 6 * (th : ℚ) := by
    intro th h0 h10
    rcases eq_or_lt_of_le h0 with h0 | h0
    · have hz : th = 0 := h0.symm
      subst hz
      norm_num [calculate_start_allocation, END_ALLOCATION, MAX_START_STOCKS,
        MAX_START_BONDS, MIN_START_CASH]
      have : ((20 : ℤ) : ℚ) = (20 : ℚ) := by norm_num
      rw [← this, round2_intCast]
    · rcases le_or_lt th 4 with h4 | h4
      · rw [start_alloc_low th (by omega) h4]
      · rcases le_or_lt th 10 with hb | hb
        · rw [start_alloc_mid th (by omega) hb]
        · omega
  constructor
  · intro a b ha hab hb
    rw [hstocks a ha (by omega), hstocks b (by omega) hb]
    have : (a : ℚ) ≤ (b : ℚ) := by exact_mod_cast hab
    linarith
  · intro th h10
    rw [start_alloc_high th h10, start_alloc_high 10 (by norm_num)]

/-- C6 witness: concrete instances of both conjuncts, at horizons 2 and 3
for monotonicity and at horizon 13 for constancy. -/
theorem C6_start_stocks_monotone_witness :
    ((0 : ℤ) ≤ 2 ∧ (2 : ℤ) ≤ 3 ∧ (3 : ℤ) ≤ 10 ∧
      (calculate_start_allocation 2).stocks ≤ (calculate_start_allocation 3).stocks) ∧
    ((10 : ℤ) ≤ 13 ∧
      (calculate_start_allocation 13).stocks = (calculate_start_allocation 10).stocks) :=
  ⟨⟨by norm_num, by norm_num, by norm_num,
    C6_start_stocks_monotone.1 2 3 (by norm_num) (by norm_num) (by norm_num)⟩,
   ⟨by norm_num, C6_start_stocks_monotone.2 13 (by norm_num)⟩⟩

/-- The inner `calculate_final_value` closure of `calculate_required_deposit`
(src/main.py lines 85-93): starting from value 0, each year adds the deposit,
splits the value by the fixed allocation, applies each asset return, and sums
back. The third argument counts loop iterations (`years`). -/
def calculate_final_value (start_allocation : Alloc) (deposit : ℚ) : ℕ → ℚ
  | 0 => 0
  | n + 1 =>
    let value := calculate_final_value start_allocation deposit n + deposit
    value * (start_allocation.stocks / 100) * (1 + STOCKS_RETURN)
      + value * (start_allocation.bonds / 100) * (1 + BONDS_RETURN)
      + value * (start_allocation.cash / 100) * (1 + CASH_RETURN)

/-- The fixed 20-iteration binary search of `calculate_required_deposit`
(src/main.py lines 95-105), with the remaining iteration count as fuel and
the current `low`, `high`, and `guess` as explicit state. -/
def bsearch (goal : ℚ) (years : ℕ) (alloc : Alloc) : ℚ → ℚ → ℚ → ℕ → ℚ
  | _, _, guess, 0 => guess
  | low, high, _, n + 1 =>
    let guess := (low + high) / 2
    let final_value := calculate_final_value alloc guess years
    if |final_value - goal| < 1 / 100 then guess
    else if final_value < goal then bsearch goal years alloc guess high guess n
    else bsearch goal years alloc low guess guess n

/-- Embedding of `calculate_required_deposit` (src/main.py lines 78-105):
nonpositive years return the goal itself; otherwise 20 binary-search
iterations over deposits in [0, goal * 2], starting from the initial guess
`goal / years` that the loop overwrites before first use. -/
def calculate_required_deposit (goal : ℚ) (years : ℤ) (start_allocation : Alloc) : ℚ :=
  if years ≤ 0 then goal
  else bsearch goal years.toNat start_allocation 0 (goal * 2) (goal / years) 20

/-- C7: with nonpositive years the solver returns the goal directly. -/
theorem C7_nonpositive_years_return_goal (goal : ℚ) (years : ℤ) (alloc : Alloc)
    (h : years ≤ 0) : calculate_required_deposit goal years alloc = goal := by
  unfold calculate_required_deposit
  rw [if_pos h]

/-- C7 witness at goal 92000, zero years. -/
theorem C7_nonpositive_years_return_goal_witness :
    (0 : ℤ) ≤ 0 ∧ calculate_required_deposit 92000 0 ⟨44, 5056 / 100, 544 / 100⟩ = 92000 :=
  ⟨le_refl 0, C7_nonpositive_years_return_goal 92000 0 ⟨44, 5056 / 100, 544 / 100⟩ (le_refl 0)⟩

lemma calculate_final_value_zero (alloc : Alloc) (n : ℕ) :
    calculate_final_value alloc 0 n = 0 := by
  induction n with
  | zero => rfl
  | succ n ih =>
    simp only [calculate_final_value, ih]
    ring

lemma bsearch_succ (goal : ℚ) (years : ℕ) (alloc : Alloc) (low high g : ℚ) (n : ℕ) :
    bsearch goal years alloc low high g (n + 1) =
      (if |calculate_final_value alloc ((low + high) / 2) years - goal| < 1 / 100 then
        (low + high) / 2
      else if calculate_final_value alloc ((low + high) / 2) years < goal then
        bsearch goal years alloc ((low + high) / 2) high ((low + high) / 2) n
      else bsearch goal years alloc low ((low + high) / 2) ((low + high) / 2) n) := rfl

/-- C8: with goal 0 the solver returns 0 for every number of years and every
allocation: the bracket [0, 0] makes the first midpoint guess 0, whose
simulated final value 0 meets the tolerance at once. -/
theorem C8_zero_goal_returns_zero (years : ℤ) (alloc : Alloc) :
    calculate_required_deposit 0 years alloc = 0 := by
  unfold calculate_required_deposit
  by_cases h : years ≤ 0
  · rw [if_pos h]
  · rw [if_neg h]
    rw [show (20 : ℕ) = 19 + 1 from rfl, bsearch_succ]
    have hg : ((0 : ℚ) + 0 * 2) / 2 = 0 := by norm_num
    rw [hg, calculate_final_value_zero]
    norm_num

set_option maxRecDepth 100000 in
/-- C2 counterexample: the claim asserts that for goal 25000, 4 years, and
the fixed allocation stocks 59, bonds 41, cash 0, simulating the returned
deposit reaches within 0.01 of the goal. The 20-iteration search returns
deposit 332221875/65536, whose 4-year simulated value misses 25000 by about
0.0416, outside the 0.01 tolerance. -/
theorem C2_tolerance_counterexample :
    ¬ |calculate_final_value ⟨59, 41, 0⟩
        (calculate_required_deposit 25000 4 ⟨59, 41, 0⟩) 4 - 25000| < 1 / 100 := by
  decide

set_option maxRecDepth 100000 in
/-- C2 amended: for goal 25000, 4 years, allocation stocks 59, bonds 41,
cash 0, the simulated final value using the returned deposit is within 0.05
of 25000. -/
theorem C2_tolerance_amended :
    |calculate_final_value ⟨59, 41, 0⟩
        (calculate_required_deposit 25000 4 ⟨59, 41, 0⟩) 4 - 25000| ≤ 5 / 100 := by
  decide

lemma interp_mem {lo hi A B t : ℚ} (hA1 : lo ≤ A) (hA2 : A ≤ hi) (hB1 : lo ≤ B)
    (hB2 : B ≤ hi) (ht0 : 0 ≤ t) (ht1 : t ≤ 1) :
    lo ≤ A + (B - A) * t ∧ A + (B - A) * t ≤ hi := by
  constructor
  · nlinarith [mul_nonneg (sub_nonneg.mpr hB1) ht0,
      mul_nonneg (sub_nonneg.mpr hA1) (sub_nonneg.mpr ht1)]
  · nlinarith [mul_nonneg (sub_nonneg.mpr hB2) ht0,
      mul_nonneg (sub_nonneg.mpr hA2) (sub_nonneg.mpr ht1)]

lemma round2_bounds {x lo hi : ℚ} (h1 : lo ≤ x) (h2 : x ≤ hi) :
    lo - 1 / 200 ≤ round2 x ∧ round2 x ≤ hi + 1 / 200 := by
  have h := abs_round2_sub x
  rw [abs_le] at h
  constructor <;> linarith

/-- C4: every entry of every glide path for a horizon of at least one year
has its three components in [0, 100], and they sum to 100 within the
rounding tolerance 0.02. -/
theorem C4_entry_bounds_and_sum (th : ℤ) (l : List GlideEntry) (e : GlideEntry)
    (h : 1 ≤ th) (hl : generate_glide_path th = .ok l) (he : e ∈ l) :
    (0 ≤ e.stocks ∧ e.stocks ≤ 100) ∧ (0 ≤ e.bonds ∧ e.bonds ≤ 100) ∧
    (0 ≤ e.cash ∧ e.cash ≤ 100) ∧ |e.stocks + e.bonds + e.cash - 100| ≤ 2 / 100 := by
  have hth : th ≠ 0 := by omega
  rw [generate_glide_path_ok th hth] at hl
  have hl2 : (List.range (th + 1).toNat).map
      (glide_entry_val (calculate_start_allocation th) th) = l := Except.ok.inj hl
  rw [← hl2] at he
  obtain ⟨y, hymem, hye⟩ := List.mem_map.mp he
  have hylt : y < (th + 1).toNat := List.mem_range.mp hymem
  have hqth : (0 : ℚ) < (th : ℚ) := by exact_mod_cast (by omega : (0 : ℤ) < th)
  have ht0 : 0 ≤ (y : ℚ) / (th : ℚ) := div_nonneg (by positivity) (le_of_lt hqth)
  have ht1 : (y : ℚ) / (th : ℚ) ≤ 1 := by
    rw [div_le_one hqth]
    exact_mod_cast (by omega : (y : ℤ) ≤ th)
  obtain ⟨⟨hs1, hs2⟩, ⟨hb1, hb2⟩, ⟨hc1, hc2⟩, hsum⟩ := start_alloc_bounds th h
  subst hye
  unfold glide_entry_val
  dsimp only
  simp only [END_ALLOCATION]
  rw [mul_div_assoc (20 - (calculate_start_allocation th).stocks),
    mul_div_assoc (43 - (calculate_start_allocation th).bonds),
    mul_div_assoc (37 - (calculate_start_allocation th).cash)]
  obtain ⟨hps1, hps2⟩ := interp_mem hs1 hs2 (by norm_num : (20 : ℚ) ≤ 20)
    (by norm_num : (20 : ℚ) ≤ 80) ht0 ht1
  obtain ⟨hpb1, hpb2⟩ := interp_mem hb1 hb2 (by norm_num : (15 : ℚ) ≤ 43)
    (by norm_num : (43 : ℚ) ≤ 75) ht0 ht1
  obtain ⟨hpc1, hpc2⟩ := interp_mem hc1 hc2 (by norm_num : (5 : ℚ) ≤ 37)
    (by norm_num : (37 : ℚ) ≤ 37) ht0 ht1
  obtain ⟨hrs1, hrs2⟩ := round2_bounds hps1 hps2
  obtain ⟨hrb1, hrb2⟩ := round2_bounds hpb1 hpb2
  obtain ⟨hrc1, hrc2⟩ := round2_bounds hpc1 hpc2
  have hpre_sum : ((calculate_start_allocation th).stocks
        + (20 - (calculate_start_allocation th).stocks) * ((y : ℚ) / (th : ℚ)))
      + ((calculate_start_allocation th).bonds
        + (43 - (calculate_start_allocation th).bonds) * ((y : ℚ) / (th : ℚ)))
      + ((calculate_start_allocation th).cash
        + (37 - (calculate_start_allocation th).cash) * ((y : ℚ) / (th : ℚ))) = 100 := by
    linear_combination (1 - (y : ℚ) / (th : ℚ)) * hsum
  have habs_s := abs_round2_sub ((calculate_start_allocation th).stocks
    + (20 - (calculate_start_allocation th).stocks) * ((y : ℚ) / (th : ℚ)))
  have habs_b := abs_round2_sub ((calculate_start_allocation th).bonds
    + (43 - (calculate_start_allocation th).bonds) * ((y : ℚ) / (th : ℚ)))
  have habs_c := abs_round2_sub ((calculate_start_allocation th).cash
    + (37 - (calculate_start_allocation th).cash) * ((y : ℚ) / (th : ℚ)))
  rw [abs_le] at habs_s habs_b habs_c
  refine ⟨⟨by linarith, by linarith⟩, ⟨by linarith, by linarith⟩,
    ⟨by linarith, by linarith⟩, ?_⟩
  rw [abs_le]
  constructor <;> linarith

/-- C4 witness: the middle entry of the glide path for horizon 2. -/
theorem C4_entry_bounds_and_sum_witness :
    (1 : ℤ) ≤ 2 ∧
    generate_glide_path 2 = .ok
      [⟨0, 32, 4678 / 100, 2122 / 100⟩, ⟨1, 26, 4489 / 100, 2911 / 100⟩, ⟨2, 20, 43, 37⟩] ∧
    (⟨1, 26, 4489 / 100, 2911 / 100⟩ : GlideEntry) ∈
      ([⟨0, 32, 4678 / 100, 2122 / 100⟩, ⟨1, 26, 4489 / 100, 2911 / 100⟩,
        ⟨2, 20, 43, 37⟩] : List GlideEntry) ∧
    ((0 ≤ (⟨1, 26, 4489 / 100, 2911 / 100⟩ : GlideEntry).stocks ∧
      (⟨1, 26, 4489 / 100, 2911 / 100⟩ : GlideEntry).stocks ≤ 100) ∧
     (0 ≤ (⟨1, 26, 4489 / 100, 2911 / 100⟩ : GlideEntry).bonds ∧
      (⟨1, 26, 4489 / 100, 2911 / 100⟩ : GlideEntry).bonds ≤ 100) ∧
     (0 ≤ (⟨1, 26, 4489 / 100, 2911 / 100⟩ : GlideEntry).cash ∧
      (⟨1, 26, 4489 / 100, 2911 / 100⟩ : GlideEntry).cash ≤ 100) ∧
     |(⟨1, 26, 4489 / 100, 2911 / 100⟩ : GlideEntry).stocks
        + (⟨1, 26, 4489 / 100, 2911 / 100⟩ : GlideEntry).bonds
        + (⟨1, 26, 4489 / 100, 2911 / 100⟩ : GlideEntry).cash - 100| ≤ 2 / 100) :=
  ⟨by norm_num, rfl, by decide,
    C4_entry_bounds_and_sum 2
      [⟨0, 32, 4678 / 100, 2122 / 100⟩, ⟨1, 26, 4489 / 100, 2911 / 100⟩, ⟨2, 20, 43, 37⟩]
      ⟨1, 26, 4489 / 100, 2911 / 100⟩ (by norm_num) rfl (by decide)⟩

/-- A projection record: the dict appended each year by
`calculate_portfolio_projections`. -/
structure ProjectionRecord where
  year : ℕ
  deposit : ℚ
  portfolio_value : ℚ
  stocks_value : ℚ
  bonds_value : ℚ
  cash_value : ℚ
  deriving DecidableEq

/-- Default record used with `List.getD` when stating index lookups. -/
def dPR : ProjectionRecord := ⟨0, 0, 0, 0, 0, 0⟩

/-- The `for year in range(1, time_horizon + 1)` loop of
`calculate_portfolio_projections` (src/main.py lines 112-139), with the
remaining iteration count as fuel. Each year adds the deposit, reads
`glide_path[year - 1]` (IndexError modelled as `none`), splits the value by
that allocation, applies each asset return, and appends the record. -/
def proj_loop (annual_deposit : ℚ) (glide_path : List GlideEntry) :
    ℚ → ℕ → ℕ → Option (List ProjectionRecord)
  | _, _, 0 => some []
  | portfolio_value, year, n + 1 =>
    let pv := portfolio_value + annual_deposit
    match glide_path[year - 1]? with
    | none => none
    | some allocation =>
      let stocks_value := pv * (allocation.stocks / 100)
      let bonds_value := pv * (allocation.bonds / 100)
      let cash_value := pv * (allocation.cash / 100)
      let stocks_after_return := stocks_value * (1 + STOCKS_RETURN)
      let bonds_after_return := bonds_value * (1 + BONDS_RETURN)
      let cash_after_return := cash_value * (1 + CASH_RETURN)
      let pv2 := stocks_after_return + bonds_after_return + cash_after_return
      match proj_loop annual_deposit glide_path pv2 (year + 1) n with
      | none => none
      | some rest =>
        some (⟨year, annual_deposit, pv2, stocks_after_return, bonds_after_return,
          cash_after_return⟩ :: rest)

/-- Embedding of `calculate_portfolio_projections` (src/main.py lines
107-141): portfolio value starts at 0, years run from 1 to time_horizon. -/
def calculate_portfolio_projections (annual_deposit : ℚ) (time_horizon : ℤ)
    (glide_path : List GlideEntry) : Option (List ProjectionRecord) :=
  proj_loop annual_deposit glide_path 0 1 time_horizon.toNat

lemma proj_loop_spec (d : ℚ) (gp : List GlideEntry) :
    ∀ (n y : ℕ) (pv : ℚ), y + n ≤ gp.length →
      ∃ l, proj_loop d gp pv (y + 1) n = some l ∧ l.length = n ∧
        ∀ i, i < n →
          (l.getD i dPR).year = y + 1 + i ∧
          (l.getD i dPR).deposit = d ∧
          (l.getD i dPR).stocks_value =
            ((if i = 0 then pv else (l.getD (i - 1) dPR).portfolio_value) + d)
              * ((gp.getD (y + i) dGE).stocks / 100) * (1 + STOCKS_RETURN) ∧
          (l.getD i dPR).bonds_value =
            ((if i = 0 then pv else (l.getD (i - 1) dPR).portfolio_value) + d)
              * ((gp.getD (y + i) dGE).bonds / 100) * (1 + BONDS_RETURN) ∧
          (l.getD i dPR).cash_value =
            ((if i = 0 then pv else (l.getD (i - 1) dPR).portfolio_value) + d)
              * ((gp.getD (y + i) dGE).cash / 100) * (1 + CASH_RETURN) ∧
          (l.getD i dPR).portfolio_value =
            (l.getD i dPR).stocks_value + (l.getD i dPR).bonds_value
              + (l.getD i dPR).cash_value := by
  intro n
  induction n with
  | zero =>
    intro y pv h
    exact ⟨[], rfl, rfl, fun i hi => absurd hi (Nat.not_lt_zero i)⟩
  | succ n ih =>
    intro y pv h
    have hy : y < gp.length := by omega
    have hidx : gp[y + 1 - 1]? = some (gp.getD y dGE) := by
      have h1 : y + 1 - 1 = y := by omega
      rw [h1]
      simp [List.getElem?_eq_getElem hy, List.getD_eq_getElem?_getD]
    obtain ⟨rest, hrest, hlen, hspec⟩ := ih (y + 1)
      ((pv + d) * ((gp.getD y dGE).stocks / 100) * (1 + STOCKS_RETURN)
        + (pv + d) * ((gp.getD y dGE).bonds / 100) * (1 + BONDS_RETURN)
        + (pv + d) * ((gp.getD y dGE).cash / 100) * (1 + CASH_RETURN)) (by omega)
    refine ⟨⟨y + 1, d,
      (pv + d) * ((gp.getD y dGE).stocks / 100) * (1 + STOCKS_RETURN)
        + (pv + d) * ((gp.getD y dGE).bonds / 100) * (1 + BONDS_RETURN)
        + (pv + d) * ((gp.getD y dGE).cash / 100) * (1 + CASH_RETURN),
      (pv + d) * ((gp.getD y dGE).stocks / 100) * (1 + STOCKS_RETURN),
      (pv + d) * ((gp.getD y dGE).bonds / 100) * (1 + BONDS_RETURN),
      (pv + d) * ((gp.getD y dGE).cash / 100) * (1 + CASH_RETURN)⟩ :: rest, ?_, ?_, ?_⟩
    · simp only [proj_loop]
      rw [hidx]
      dsimp only
      rw [hrest]
    · simp only [List.length_cons, hlen]
    · intro i hi
      cases i with
      | zero => exact ⟨rfl, rfl, rfl, rfl, rfl, rfl⟩
      | succ j =>
        obtain ⟨hyr, hdep, hs, hb, hc, hp⟩ := hspec j (by omega)
        have hix : y + (j + 1) = y + 1 + j := by omega
        refine ⟨?_, hdep, ?_, ?_, ?_, hp⟩
        · rw [show y + 1 + (j + 1) = y + 1 + 1 + j from by omega]
          exact hyr
        · rw [hix]
          cases j with
          | zero => exact hs
          | succ k => exact hs
        · rw [hix]
          cases j with
          | zero => exact hb
          | succ k => exact hb
        · rw [hix]
          cases j with
          | zero => exact hc
          | succ k => exact hc

/-- C5: for every deposit, horizon of at least one year, and glide path with
at least time_horizon entries, the projection succeeds with exactly one
record per year 1..time_horizon, and the record for year i + 1 is built by
adding the deposit to the portfolio value of the previous record (0 before
year 1), splitting that sum by the glide-path allocation at index i,
applying the fixed return of each asset class, and summing the results. -/
theorem C5_projection_recurrence (d : ℚ) (th : ℤ) (gp : List GlideEntry)
    (h1 : 1 ≤ th) (hlen : th.toNat ≤ gp.length) :
    ∃ l, calculate_portfolio_projections d th gp = some l ∧ l.length = th.toNat ∧
      ∀ i, i < th.toNat →
        (l.getD i dPR).year = i + 1 ∧
        (l.getD i dPR).deposit = d ∧
        (l.getD i dPR).stocks_value =
          ((if i = 0 then 0 else (l.getD (i - 1) dPR).portfolio_value) + d)
            * ((gp.getD i dGE).stocks / 100) * (1 + STOCKS_RETURN) ∧
        (l.getD i dPR).bonds_value =
          ((if i = 0 then 0 else (l.getD (i - 1) dPR).portfolio_value) + d)
            * ((gp.getD i dGE).bonds / 100) * (1 + BONDS_RETURN) ∧
        (l.getD i dPR).cash_value =
          ((if i = 0 then 0 else (l.getD (i - 1) dPR).portfolio_value) + d)
            * ((gp.getD i dGE).cash / 100) * (1 + CASH_RETURN) ∧
        (l.getD i dPR).portfolio_value =
          (l.getD i dPR).stocks_value + (l.getD i dPR).bonds_value
            + (l.getD i dPR).cash_value := by
  obtain ⟨l, hl, hlen2, hspec⟩ := proj_loop_spec d gp th.toNat 0 0 (by omega)
  refine ⟨l, hl, hlen2, ?_⟩
  intro i hi
  obtain ⟨hyr, hdep, hs, hb, hc, hp⟩ := hspec i hi
  simp only [Nat.zero_add] at hyr hs hb hc
  exact ⟨by omega, hdep, hs, hb, hc, hp⟩

/-- C5 witness at deposit 100, horizon 1, and a one-entry glide path. -/
theorem C5_projection_recurrence_witness :
    (1 : ℤ) ≤ 1 ∧ (1 : ℤ).toNat ≤ [(⟨0, 20, 43, 37⟩ : GlideEntry)].length ∧
    (∃ l, calculate_portfolio_projections 100 1 [(⟨0, 20, 43, 37⟩ : GlideEntry)] = some l ∧
      l.length = (1 : ℤ).toNat ∧
      ∀ i, i < (1 : ℤ).toNat →
        (l.getD i dPR).year = i + 1 ∧
        (l.getD i dPR).deposit = 100 ∧
        (l.getD i dPR).stocks_value =
          ((if i = 0 then 0 else (l.getD (i - 1) dPR).portfolio_value) + 100)
            * (([(⟨0, 20, 43, 37⟩ : GlideEntry)].getD i dGE).stocks / 100)
            * (1 + STOCKS_RETURN) ∧
        (l.getD i dPR).bonds_value =
          ((if i = 0 then 0 else (l.getD (i - 1) dPR).portfolio_value) + 100)
            * (([(⟨0, 20, 43, 37⟩ : GlideEntry)].getD i dGE).bonds / 100)
            * (1 + BONDS_RETURN) ∧
        (l.getD i dPR).cash_value =
          ((if i = 0 then 0 else (l.getD (i - 1) dPR).portfolio_value) + 100)
            * (([(⟨0, 20, 43, 37⟩ : GlideEntry)].getD i dGE).cash / 100)
            * (1 + CASH_RETURN) ∧
        (l.getD i dPR).portfolio_value =
          (l.getD i dPR).stocks_value + (l.getD i dPR).bonds_value
            + (l.getD i dPR).cash_value) :=
  ⟨le_refl 1, by decide,
    C5_projection_recurrence 100 1 [(⟨0, 20, 43, 37⟩ : GlideEntry)] (le_refl 1) (by decide)⟩

/-- C9: the projection engine is deterministic, a pure function of its three
inputs: equal inputs give equal output sequences. -/
theorem C9_projection_deterministic (d₁ d₂ : ℚ) (t₁ t₂ : ℤ)
    (g₁ g₂ : List GlideEntry) (hd : d₁ = d₂) (ht : t₁ = t₂) (hg : g₁ = g₂) :
    calculate_portfolio_projections d₁ t₁ g₁ = calculate_portfolio_projections d₂ t₂ g₂ := by
  rw [hd, ht, hg]

/-- C9 witness: two calls with the same concrete inputs agree. -/
theorem C9_projection_deterministic_witness :
    (100 : ℚ) = 100 ∧ (2 : ℤ) = 2 ∧
    [(⟨0, 32, 4678 / 100, 2122 / 100⟩ : GlideEntry)]
      = [(⟨0, 32, 4678 / 100, 2122 / 100⟩ : GlideEntry)] ∧
    calculate_portfolio_projections 100 2 [(⟨0, 32, 4678 / 100, 2122 / 100⟩ : GlideEntry)]
      = calculate_portfolio_projections 100 2 [(⟨0, 32, 4678 / 100, 2122 / 100⟩ : GlideEntry)] :=
  ⟨rfl, rfl, rfl, C9_projection_deterministic 100 100 2 2 _ _ rfl rfl rfl⟩

lemma proj_loop_congr (d : ℚ) (gp₁ gp₂ : List GlideEntry) :
    ∀ (n y : ℕ) (pv : ℚ), (∀ i, i < n → gp₁[y + i]? = gp₂[y + i]?) →
      proj_loop d gp₁ pv (y + 1) n = proj_loop d gp₂ pv (y + 1) n := by
  intro n
  induction n with
  | zero => intro y pv h; rfl
  | succ n ih =>
    intro y pv h
    have h0 : gp₁[y]? = gp₂[y]? := by
      have := h 0 (Nat.succ_pos n)
      simpa using this
    have h1 : y + 1 - 1 = y := by omega
    simp only [proj_loop, h1, h0]
    cases h2 : gp₂[y]? with
    | none => rfl
    | some a =>
      dsimp only
      rw [ih (y + 1) _ ?_]
      intro i hi
      have := h (i + 1) (by omega)
      have hx : y + (i + 1) = y + 1 + i := by omega
      rw [hx] at this
      exact this

/-- C10: the projection reads only glide-path entries at indices
0..time_horizon - 1, so replacing the entry at index time_horizon (the
ending allocation) by any other entry leaves the projection unchanged. -/
theorem C10_final_entry_never_read (d : ℚ) (th : ℤ) (gp : List GlideEntry)
    (e : GlideEntry) (h : 1 ≤ th) :
    calculate_portfolio_projections d th (gp.set th.toNat e)
      = calculate_portfolio_projections d th gp := by
  unfold calculate_portfolio_projections
  exact proj_loop_congr d (gp.set th.toNat e) gp th.toNat 0 0
    (fun i hi => List.getElem?_set_ne (by omega))

/-- C10 witness: a concrete two-entry glide path with horizon 1 and its
final entry replaced. -/
theorem C10_final_entry_never_read_witness :
    (1 : ℤ) ≤ 1 ∧
    calculate_portfolio_projections 100 1
        ([⟨0, 26, 4489 / 100, 2911 / 100⟩, ⟨1, 20, 43, 37⟩].set (1 : ℤ).toNat
          (⟨1, 50, 30, 20⟩ : GlideEntry))
      = calculate_portfolio_projections 100 1
          [⟨0, 26, 4489 / 100, 2911 / 100⟩, ⟨1, 20, 43, 37⟩] :=
  ⟨le_refl 1,
    C10_final_entry_never_read 100 1 [⟨0, 26, 4489 / 100, 2911 / 100⟩, ⟨1, 20, 43, 37⟩]
      ⟨1, 50, 30, 20⟩ (le_refl 1)⟩

end EduSavings
